import Mathlib

/-!
# Pseudo character device (`0004-pcd-driver/pcd.c`) and platform device setup
(`0005-pcd-platform-driver`)

A shallow embedding of the file operations of the pseudo character driver and
of the platform device table, followed by the properties established for them.
The kernel thread demos (`0008-kernel-mutex`, `0009-kernel-spinlock`,
`0011-kernel-seqlock`, `0012-kernel-waitqueue`) follow in sections of their
own.

Conventions of the embedding:

* `loff_t` and `ssize_t` are signed 64-bit, `size_t` is unsigned 64-bit; they
  are represented by `Int` / `Nat` and every conversion the C code performs is
  written out with `toU64` / `toS64`.
* Kernel memory around `pcd_buffer` is a map from an index relative to
  `&pcd_buffer[0]` to a byte; the array itself is the index range `[0, 512)`.
  An access at an index outside that range is an access outside the array.
* `copy_to_user` / `copy_from_user` are kernel helpers; they are modelled by
  their documented contract (return value: number of bytes that could not be
  copied, zero on success).
-/

namespace Pcd

/-! ## Constants -/

/-- Device memory buffer size, `#define DEV_MEM_SIZE 512U` (pcd.c:11). -/
def DEV_MEM_SIZE : Nat := 512

/-- Errno value `EFAULT` of the kernel headers. -/
def EFAULT : Int := 14

/-- Errno value `ENOMEM` of the kernel headers. -/
def ENOMEM : Int := 12

/-- Errno value `EINVAL` of the kernel headers. -/
def EINVAL : Int := 22

/-- Whence value `SEEK_SET` of the kernel headers. -/
def SEEK_SET : Int := 0

/-- Whence value `SEEK_CUR` of the kernel headers. -/
def SEEK_CUR : Int := 1

/-- Whence value `SEEK_END` of the kernel headers. -/
def SEEK_END : Int := 2

/-! ## Machine integers -/

/-- Conversion to an unsigned 64-bit integer (`size_t`, `unsigned long long`):
reduction modulo `2^64`. -/
def toU64 (x : Int) : Nat := (x % 2 ^ 64).toNat

/-- Conversion to a signed 64-bit integer (`loff_t`, `ssize_t`): two's
complement wrap-around. -/
def toS64 (x : Int) : Int := (x + 2 ^ 63) % 2 ^ 64 - 2 ^ 63

/-! ## Memory and the user-copy helpers -/

/-- Kernel bytes addressed by their index relative to `&pcd_buffer[0]`. -/
abbrev Mem := Int → Nat

/-- The driver state the file operations act on: the global `pcd_buffer`
(pcd.c:14) and the file position `*f_pos` / `filp->f_pos`. -/
structure State where
  pcd_buffer : Mem
  f_pos : Int

/-- Contract of the kernel helper `copy_to_user(to, from, n)`: `ucap` is the
number of bytes writable at the user pointer. The first `min n ucap` bytes of
the kernel source starting at index `src` reach user space; the result is the
number of bytes that could not be copied. -/
def copy_to_user (ucap : Nat) (mem : Mem) (src : Int) (n : Nat) : List Nat × Nat :=
  ((List.range (min n ucap)).map (fun k => mem (src + (k : Int))), n - min n ucap)

/-- Contract of the kernel helper `copy_from_user(to, from, n)`: `buff` holds
the bytes readable at the user pointer. The first `min n buff.length` of them
are stored from index `dst` on, the rest of the `n` destination bytes is
padded with zero bytes; the result is the number of bytes that could not be
copied. -/
def copy_from_user (mem : Mem) (dst : Int) (buff : List Nat) (n : Nat) : Mem × Nat :=
  (fun i => if dst ≤ i ∧ i < dst + (n : Int) then buff.getD (i - dst).toNat 0 else mem i,
   n - min n buff.length)

/-! ## File operations of `pcd.c` -/

/-- What a call of `pcd_read` did: the value returned, the state afterwards,
the index and length of the `pcd_buffer` region handed to `copy_to_user`, and
the bytes that reached user space. -/
structure ReadOutcome where
  ret : Int
  st : State
  src : Int
  len : Nat
  user : List Nat

/-- The count after step "1. adjust the count" of `pcd_read` and
"1. validate the count" of `pcd_write` (pcd.c:22-23, 43-44):
`if ((*f_pos + count) > DEV_MEM_SIZE) count = DEV_MEM_SIZE - *f_pos;`.
The sum is evaluated in `unsigned long long`, the difference in `long long`
and converted to `size_t`. -/
def adjust_count (f_pos : Int) (count : Nat) : Nat :=
  if toU64 (f_pos + (count : Int)) > DEV_MEM_SIZE then
    toU64 ((DEV_MEM_SIZE : Int) - f_pos)
  else count

/-- `pcd_read` (pcd.c:17-34). -/
def pcd_read (st : State) (ucap : Nat) (count : Nat) : ReadOutcome :=
  let count := adjust_count st.f_pos count
  let r := copy_to_user ucap st.pcd_buffer st.f_pos count
  if r.2 = 0 then
    -- `if(!copy_to_user(...)) return -EFAULT;`
    { ret := -EFAULT, st := st, src := st.f_pos, len := count, user := r.1 }
  else
    { ret := toS64 count,
      st := { st with f_pos := toS64 (st.f_pos + (count : Int)) },
      src := st.f_pos, len := count, user := r.1 }

/-- What a call of `pcd_write` did: the value returned, the state afterwards,
and the index and length of the `pcd_buffer` region handed to
`copy_from_user` (`none` when the helper was not called). -/
structure WriteOutcome where
  ret : Int
  st : State
  copy : Option (Int × Nat)

/-- `pcd_write` (pcd.c:37-64). -/
def pcd_write (st : State) (buff : List Nat) (count : Nat) : WriteOutcome :=
  let count := adjust_count st.f_pos count
  if count = 0 then
    { ret := -ENOMEM, st := st, copy := none }
  else
    let r := copy_from_user st.pcd_buffer st.f_pos buff count
    if r.2 ≠ 0 then
      { ret := -EFAULT, st := { st with pcd_buffer := r.1 }, copy := some (st.f_pos, count) }
    else
      let f_pos := toS64 (st.f_pos + (count : Int))
      let mem : Mem := if f_pos < (DEV_MEM_SIZE : Int) then Function.update r.1 f_pos 0 else r.1
      { ret := toS64 count, st := { pcd_buffer := mem, f_pos := f_pos },
        copy := some (st.f_pos, count) }

/-- Mode bit `FMODE_READ` of the kernel headers: the file was opened for
reading. -/
def FMODE_READ : Nat := 1

/-- Mode bit `FMODE_WRITE` of the kernel headers: the file was opened for
writing. -/
def FMODE_WRITE : Nat := 2

/-- Modelled from the spec: `platform.h` is not among the sources. Its
permission constants `RDONLY`, `WRONLY`, `RDWR` are the spec's
DevicePermission: "enumerated access policy (read-only / write-only /
read-write) attached to a device". -/
inductive Perm where
  | RDONLY
  | WRONLY
  | RDWR
  deriving DecidableEq, Repr

/-- Modelled from the spec: `struct pcdev_platform_data` of `platform.h`, which
is not among the sources; the fields are the ones the initialisers of
pcd_device_setup.c:17-18 name (the spec's capacity, permission and serial
identifier of a descriptor). -/
structure pcdev_platform_data where
  size : Int
  perm : Perm
  serial_number : String
  deriving DecidableEq, Repr

/-- The part of `struct inode` a driver reaches the device through: the
platform data of the device the inode stands for. -/
structure inode where
  pdata : pcdev_platform_data

/-- The part of `struct file` the file operations see: the requested access
mode `f_mode` and the file position `f_pos`. -/
structure file where
  f_mode : Nat
  f_pos : Int
  deriving DecidableEq, Repr

/-- `pcd_open` (pcd.c:68-72 and, with the same body,
pcd_platform_driver.c:50-54): logs and returns 0; neither argument is used.
The result is the value returned and the file afterwards. -/
def pcd_open (_ino : inode) (flip : file) : Int × file := (0, flip)

/-- `pcd_release` (pcd.c:75-79, pcd_platform_driver.c:57-61). -/
def pcd_release (_ino : inode) (flip : file) : Int × file := (0, flip)

/-- Modelled from the spec: what "the descriptor's permission forbids the
requested mode" means for the three permissions: read-only forbids a mode that
asks for writing, write-only forbids a mode that asks for reading, read-write
forbids nothing. -/
def forbids (p : Perm) (f_mode : Nat) : Bool :=
  match p with
  | Perm.RDONLY => f_mode &&& FMODE_WRITE != 0
  | Perm.WRONLY => f_mode &&& FMODE_READ != 0
  | Perm.RDWR => false

/-- `pcd_llseek` (pcd.c:82-101): the value returned and the state afterwards. -/
def pcd_llseek (st : State) (offset : Int) (whence : Int) : Int × State :=
  if whence = SEEK_SET then
    let st1 := { st with f_pos := offset }
    (st1.f_pos, st1)
  else if whence = SEEK_CUR then
    let st1 := { st with f_pos := toS64 (st.f_pos + offset) }
    (st1.f_pos, st1)
  else if whence = SEEK_END then
    let st1 := { st with f_pos := toS64 ((DEV_MEM_SIZE : Int) + offset) }
    (st1.f_pos, st1)
  else
    (-EINVAL, st)

/-- The offset the spec assigns to a seek: "`delta` (FromStart),
`current_offset + delta` (FromCurrent), or `capacity + delta` (FromEnd)". -/
def spec_new_offset (c d whence : Int) : Int :=
  if whence = SEEK_SET then d
  else if whence = SEEK_CUR then c + d
  else (DEV_MEM_SIZE : Int) + d

/-! ## Platform devices of `pcd_device_setup.c` -/

/-- The fields of `struct platform_device` the setup module initialises:
`.name`, `.id` and `.dev.platform_data`. -/
structure platform_device where
  name : String
  id : Int
  platform_data : pcdev_platform_data
  deriving DecidableEq, Repr

/-- The platform data table `pcdev_data[2]` (pcd_device_setup.c:15-19). -/
def pcdev_data (i : Fin 2) : pcdev_platform_data :=
  match i with
  | 0 => { size := 512, perm := Perm.RDWR, serial_number := "PCDEV0011AA" }
  | 1 => { size := 1024, perm := Perm.RDWR, serial_number := "PCDEV0022BB" }

/-- First platform device, `platform_pcdev_1` (pcd_device_setup.c:22-29). -/
def platform_pcdev_1 : platform_device :=
  { name := "pcd-char-device", id := 0, platform_data := pcdev_data 0 }

/-- Second platform device, `platform_pcdev_2` (pcd_device_setup.c:32-39). -/
def platform_pcdev_2 : platform_device :=
  { name := "pcd-char-device", id := 1, platform_data := pcdev_data 1 }

/-- Modelled from the spec: the registry behind the kernel call
`platform_device_register`, the spec's `register(descriptor)`: the devices
are kept in registration order, and a descriptor whose `(name, instance_id)`
is already present is refused ("fails with `DuplicateKey`"). The result is the
registry afterwards and whether the descriptor was added. -/
def platform_device_register (bus : List platform_device) (pdev : platform_device) :
    List platform_device × Bool :=
  if bus.any (fun d => d.name == pdev.name && d.id == pdev.id) then (bus, false)
  else (bus ++ [pdev], true)

/-- `pcdev_platform_init` (pcd_device_setup.c:42-50): registers the two
devices, ignoring the results, and returns 0. -/
def pcdev_platform_init (bus : List platform_device) : Int × List platform_device :=
  let bus1 := (platform_device_register bus platform_pcdev_1).1
  let bus2 := (platform_device_register bus1 platform_pcdev_2).1
  (0, bus2)

/-- The field of `struct platform_driver` used for matching: `.driver.name`. -/
structure platform_driver where
  name : String

/-- The platform driver instance `pcd_platform_driver`
(pcd_platform_driver.c:100-108). -/
def pcd_platform_driver : platform_driver := { name := "pcd-char-device" }

/-- Modelled from the spec: `match_by_name(name)`, "ordered sequence of
descriptors" of that name, in registration order. -/
def match_by_name (bus : List platform_device) (name : String) : List platform_device :=
  bus.filter (fun d => d.name == name)

/-- A buffer of zero bytes, the initial value `{0}` of `pcd_buffer` (pcd.c:14). -/
def zeroMem : Mem := fun _ => 0

end Pcd

/-! # Kernel thread demos: module init and exit

`0008-kernel-mutex`, `0009-kernel-spinlock`, `0011-kernel-seqlock` and
`0012-kernel-waitqueue`. Module init and exit are sequential code; what they
do to the worker threads and to the synchronisation object is recorded as the
list of these actions in program order. -/

namespace Kthread

/-- An action of module init or exit on a worker thread or on the
synchronisation object. `run task`: a `kthread_run` that succeeded, the thread
whose handle is stored in the variable `task` is started; `sync_init obj`:
`mutex_init` / `spin_lock_init` / `seqlock_init` / `init_waitqueue_head` on
`obj`; `stop task`: `kthread_stop` on the handle stored in `task`. -/
inductive Act where
  | run (task : String)
  | sync_init (obj : String)
  | stop (task : String)
  deriving DecidableEq, Repr

/-- `mutex_module_init` (kernel-mutex.c:54-78). `r1`, `r2` are the outcomes of
the two `kthread_run` calls: `none` for a started thread, `some e` for an
error pointer with `PTR_ERR` value `e`. The result is the value returned and
the actions performed, in order. -/
def mutex_module_init (r1 r2 : Option Int) : Int × List Act :=
  match r1 with
  | some e => (e, [])
  | none =>
    match r2 with
    | some e => (e, [Act.run "thread_th1"])
    | none => (0, [Act.run "thread_th1", Act.run "thread_th2", Act.sync_init "my_mutex"])

/-- `mutex_module_exit` (kernel-mutex.c:80-85). -/
def mutex_module_exit : List Act := [Act.stop "thread_th1", Act.stop "thread_th2"]

/-- `module_spinlock_init` (spinlock.c:49-69), with the outcomes of the two
`kthread_run` calls as for `mutex_module_init`. -/
def module_spinlock_init (r1 r2 : Option Int) : Int × List Act :=
  match r1 with
  | some e => (e, [])
  | none =>
    match r2 with
    | some e => (e, [Act.run "Thread_th1"])
    | none => (0, [Act.run "Thread_th1", Act.run "Thread_th2", Act.sync_init "my_lock"])

/-- `module_spinlock_exit` (spinlock.c:71-76): both calls name `Thread_th2`. -/
def module_spinlock_exit : List Act := [Act.stop "Thread_th2", Act.stop "Thread_th2"]

/-- `module_seqlock_init` (seqlock.c:45-63), with the outcomes of the two
`kthread_run` calls as for `mutex_module_init`. -/
def module_seqlock_init (r1 r2 : Option Int) : Int × List Act :=
  match r1 with
  | some e => (e, [])
  | none =>
    match r2 with
    | some e => (e, [Act.run "thread_th1"])
    | none => (0, [Act.run "thread_th1", Act.run "thread_th2", Act.sync_init "my_seqlock"])

/-- `waitqueue_module_init` (waitqueue.c:43-59): both `kthread_run` calls are
made first, then the two results are tested together. -/
def waitqueue_module_init (r1 r2 : Option Int) : Int × List Act :=
  let started :=
    (if r1.isNone then [Act.run "dispatcher_instance"] else []) ++
      (if r2.isNone then [Act.run "handler_instance"] else [])
  if r1.isSome || r2.isSome then (-1, started)
  else (0, started ++ [Act.sync_init "wq"])

/-- The ordering "the synchronization object is initialized before any worker
thread that uses it is started", read on a list of actions in program order:
scanning from the front, a `sync_init` is met before any `run`. -/
def init_precedes_workers : List Act → Bool
  | [] => true
  | Act.sync_init _ :: _ => true
  | Act.run _ :: _ => false
  | Act.stop _ :: rest => init_precedes_workers rest

/-- The threads started by a list of actions, in order. -/
def started : List Act → List String
  | [] => []
  | Act.run t :: rest => t :: started rest
  | _ :: rest => started rest

/-- Number of `kthread_stop` requests for the handle `task` in a list of
actions. -/
def stops_of (task : String) (acts : List Act) : Nat := acts.count (Act.stop task)

end Kthread

/-! # Wait queue demo: the handler task (`0012-kernel-waitqueue/waitqueue.c`) -/

namespace Waitqueue

/-- Where the handler task is in `handler_callback_func`: at the test of the
`while` loop, inside `wait_event_interruptible`, or returned. -/
inductive HandlerPc where
  | loop_test
  | waiting
  | exited
  deriving DecidableEq, Repr

/-- Errno value `ERESTARTSYS` of the kernel headers. -/
def ERESTARTSYS : Int := 512

/-- What the handler task's progress depends on: the global `g_event`
(waitqueue.c:15), whether a stop has been requested for the task (what
`kthread_should_stop()` returns), whether the task has a notification pending
(the thread flag `TIF_NOTIFY_SIGNAL`, which makes `signal_pending()` true),
and where the task is. -/
structure Handler where
  g_event : Int
  should_stop : Bool
  notify_signal : Bool
  pc : HandlerPc
  deriving DecidableEq, Repr

/-- The condition of `wait_event_interruptible(wq, g_event == 1)`
(waitqueue.c:35). -/
def wait_condition (h : Handler) : Bool := h.g_event == 1

/-- Contract of the kernel macro `wait_event_interruptible(wq, condition)` at
a wake-up of the waiting task: the condition is evaluated first and the wait
returns 0 if it holds; otherwise, with a signal or notification pending, the
wait returns `-ERESTARTSYS`; otherwise the task sleeps again (`none`). -/
def wait_event_interruptible (h : Handler) : Option Int :=
  if wait_condition h then some 0
  else if h.notify_signal then some (-ERESTARTSYS)
  else none

/-- The handler task `handler_callback_func` (waitqueue.c:30-40), run until it
next blocks or returns. At the loop test it returns if a stop was requested
and enters the wait otherwise. In the wait, when `wait_event_interruptible`
returns, its value is discarded (waitqueue.c:35), the task sets `g_event = 0`
and is back at the loop test; when it does not return the task stays in the
wait. -/
def handler_step (h : Handler) : Handler :=
  match h.pc with
  | HandlerPc.loop_test =>
    if h.should_stop then { h with pc := HandlerPc.exited }
    else { h with pc := HandlerPc.waiting }
  | HandlerPc.waiting =>
    match wait_event_interruptible h with
    | some _ => { h with g_event := 0, pc := HandlerPc.loop_test }
    | none => h
  | HandlerPc.exited => h

/-- Contract of the kernel call `kthread_stop(handler_instance)`
(waitqueue.c:69-72) as far as the handler is concerned: the stop request is
recorded (`KTHREAD_SHOULD_STOP`), the thread flag `TIF_NOTIFY_SIGNAL` is set,
and the task is woken up, that is, it runs one `handler_step`. -/
def kthread_stop (h : Handler) : Handler :=
  handler_step { h with should_stop := true, notify_signal := true }

end Waitqueue

/-! # Lock demos: worker threads contending for the shared counter

`0008-kernel-mutex/kernel-mutex.c`, `0009-kernel-spinlock/spinlock.c` and
`0009-kernel-spinlock/rw_spinlock.c`. The worker threads are run under an
interleaving semantics: a schedule is a list of events, each letting one
thread take its next step, or being the lock initialisation that module init
performs after it has started the workers. The lock primitives are taken by
their contract: `mutex_lock` / `spin_lock` / `write_lock` proceed only when
nobody holds the lock, `read_lock` only when no writer holds it; the lock
object, in static storage, is free when the workers start, and `mutex_init` /
`spin_lock_init` / `rwlock_init` sets it free whatever its state. -/

namespace Locked

/-- Conversion to `int` (32-bit two's complement), the type of the shared
counter `global_resource` / `global_var`. -/
def toS32 (x : Int) : Int := (x + 2 ^ 31) % 2 ^ 32 - 2 ^ 31

/-- Where a worker thread is in its callback: at the test of
`while(!kthread_should_stop())`, before the lock call, before the load of the
counter, before the store of the counter, before the unlock call, or
returned. -/
inductive Pc where
  | test
  | lock
  | load
  | store
  | unlock
  | exited
  deriving DecidableEq, Repr

/-- The two kinds of worker: a writer runs `lock; counter++; unlock`
(`thread1_callback_fun` / `thread2_callback_fun` of kernel-mutex.c:22-52,
`thread1_callback_func` / `thread2_callback_func` of spinlock.c:21-47,
`write_callback_func` of rw_spinlock.c:18-29); a reader runs
`read_lock; g_read_var = global_var; read_unlock` (`read_callback_func_1` /
`read_callback_func_2` of rw_spinlock.c:33-60). -/
inductive Role where
  | writer
  | reader
  deriving DecidableEq, Repr

/-- A worker thread: its kind, where it is, the counter value it has loaded
for the increment, the number of loop iterations it has completed, and whether
a stop has been requested for it. -/
structure Thread where
  role : Role
  pc : Pc
  tmp : Int
  iters : Nat
  should_stop : Bool
  deriving DecidableEq, Repr

/-- The shared state: the counter (`global_resource` of kernel-mutex.c:15,
`global_var` of spinlock.c:7 and rw_spinlock.c:14), `g_read_var`
(rw_spinlock.c:15), the thread holding the lock exclusively, the number of
threads holding it for reading, and the worker threads. -/
structure Sys where
  global_var : Int
  g_read_var : Int
  owner : Option Nat
  readers : Nat
  threads : List Thread
  deriving DecidableEq, Repr

/-- The next step of thread number `i`, whose record is `th`; `none` when the
thread cannot step (it waits for the lock, or it has returned). The increment
`counter++` is a load followed by a store. -/
def thread_step (s : Sys) (i : Nat) (th : Thread) : Option Sys :=
  match th.pc, th.role with
  | Pc.test, _ =>
    let th1 := { th with pc := if th.should_stop then Pc.exited else Pc.lock }
    some { s with threads := s.threads.set i th1 }
  | Pc.lock, Role.writer =>
    if s.owner = none ∧ s.readers = 0 then
      some { s with owner := some i, threads := s.threads.set i { th with pc := Pc.load } }
    else none
  | Pc.load, Role.writer =>
    some { s with threads := s.threads.set i { th with tmp := s.global_var, pc := Pc.store } }
  | Pc.store, Role.writer =>
    some { s with global_var := toS32 (th.tmp + 1),
                  threads := s.threads.set i { th with pc := Pc.unlock } }
  | Pc.unlock, Role.writer =>
    some { s with owner := none,
                  threads := s.threads.set i { th with pc := Pc.test, iters := th.iters + 1 } }
  | Pc.lock, Role.reader =>
    if s.owner = none then
      some { s with readers := s.readers + 1,
                    threads := s.threads.set i { th with pc := Pc.load } }
    else none
  | Pc.load, Role.reader =>
    some { s with g_read_var := s.global_var,
                  threads := s.threads.set i { th with pc := Pc.unlock } }
  | Pc.store, Role.reader => none
  | Pc.unlock, Role.reader =>
    some { s with readers := s.readers - 1,
                  threads := s.threads.set i { th with pc := Pc.test, iters := th.iters + 1 } }
  | Pc.exited, _ => none

/-- A scheduling event: thread `t` takes its next step; `kthread_stop` is
requested for thread `t`; or module init, which has started the workers
already, reaches its last statement and initialises the lock (`mutex_init` of
kernel-mutex.c:75, `spin_lock_init` of spinlock.c:66, `rwlock_init` of
rw_spinlock.c:77). -/
inductive Event where
  | run (t : Nat)
  | stop (t : Nat)
  | lock_init
  deriving DecidableEq, Repr

/-- One event of a schedule; `none` when the event cannot happen. The lock
initialisation sets the lock free, also when a thread holds it. -/
def step (s : Sys) : Event → Option Sys
  | Event.run i =>
    match s.threads[i]? with
    | some th => thread_step s i th
    | none => none
  | Event.stop i =>
    match s.threads[i]? with
    | some th => some { s with threads := s.threads.set i { th with should_stop := true } }
    | none => none
  | Event.lock_init => some { s with owner := none, readers := 0 }

/-- A whole schedule, event after event. -/
def exec (s : Sys) : List Event → Option Sys
  | [] => some s
  | e :: es =>
    match step s e with
    | some s1 => exec s1 es
    | none => none

/-- A worker thread that has just been started. -/
def fresh (r : Role) : Thread :=
  { role := r, pc := Pc.test, tmp := 0, iters := 0, should_stop := false }

/-- The state when module init has started the workers and has not yet
initialised the lock: counter 0 (kernel-mutex.c:15, spinlock.c:7,
rw_spinlock.c:14), the lock object as static storage holds it, free, `W`
writer threads and `R` reader threads just started. The mutex and spinlock
demos are `W = 2`, `R = 0`; the rw-spinlock demo is `W = 1`, `R = 2`. -/
def init (W R : Nat) : Sys :=
  { global_var := 0, g_read_var := 0, owner := none, readers := 0,
    threads := List.replicate W (fresh Role.writer) ++ List.replicate R (fresh Role.reader) }

/-- A thread between the lock call and the end of the unlock call. -/
def in_critical_section (pc : Pc) : Bool :=
  pc = Pc.load || pc = Pc.store || pc = Pc.unlock

/-- The increments a thread has stored so far: for a writer its completed
iterations, plus one when it has stored and not yet unlocked. -/
def credit (th : Thread) : Nat :=
  match th.role with
  | Role.writer => th.iters + (if th.pc = Pc.unlock then 1 else 0)
  | Role.reader => 0

/-- Whether every lock initialisation of a schedule run from `s` happens at a
moment when no writer holds the lock. -/
def init_on_unheld (s : Sys) : List Event → Bool
  | [] => true
  | e :: es =>
    (match e with
      | Event.lock_init => s.owner.isNone
      | _ => true) &&
    (match step s e with
      | some s1 => init_on_unheld s1 es
      | none => true)

/-- The schedule of two writers, one loop iteration each, in which the lock
initialisation falls while writer 0 is between its load and its store: writer
0 passes its loop test, locks and loads; the lock is initialised; writer 1
runs its whole iteration; writer 0 stores and unlocks. -/
def late_init_schedule : List Event :=
  [Event.run 0, Event.run 0, Event.run 0, Event.lock_init,
   Event.run 1, Event.run 1, Event.run 1, Event.run 1, Event.run 1,
   Event.run 0, Event.run 0]

/-- The schedule in which thread 0 alone runs `I` loop iterations: five steps
each (loop test, lock, load, store, unlock). -/
def solo (I : Nat) : List Event :=
  (List.replicate I
    [Event.run 0, Event.run 0, Event.run 0, Event.run 0, Event.run 0]).flatten

/-- The state of a single writer at its loop test after `k` completed
iterations, `t` being the value it loaded last. -/
def quiet (k : Nat) (t : Int) : Sys :=
  { global_var := toS32 k, g_read_var := 0, owner := none, readers := 0,
    threads := [{ role := Role.writer, pc := Pc.test, tmp := t, iters := k,
                  should_stop := false }] }

/-- The invariant of the lock demos: a writer between its lock and unlock
calls is the holder of the lock; a writer about to store has loaded the
current value of the counter; the counter is the number of increments stored
so far, as an `int`. -/
def Inv (s : Sys) : Prop :=
  (∀ (i : Nat) (th : Thread), s.threads[i]? = some th → th.role = Role.writer →
      in_critical_section th.pc = true → s.owner = some i) ∧
    (∀ (i : Nat) (th : Thread), s.threads[i]? = some th → th.role = Role.writer →
      th.pc = Pc.store → th.tmp = s.global_var) ∧
    s.global_var = toS32 (((s.threads.map credit).sum : Nat) : Int)

end Locked

namespace Pcd

/-! ## Arithmetic of the conversions -/

theorem toU64_of_range (x : Int) (h0 : 0 ≤ x) (h1 : x < 2 ^ 64) : toU64 x = x.toNat := by
  unfold toU64
  rw [Int.emod_eq_of_lt h0 h1]

theorem toU64_natCast (n : Nat) (h : n < 2 ^ 64) : toU64 (n : Int) = n := by
  rw [toU64_of_range _ (by positivity) (by exact_mod_cast h)]
  simp

theorem toS64_of_range (x : Int) (h0 : -(2 ^ 63) ≤ x) (h1 : x < 2 ^ 63) : toS64 x = x := by
  unfold toS64
  rw [Int.emod_eq_of_lt (by linarith) (by linarith)]
  ring

/-- Without wrap-around the adjusted count is `min count (512 - f_pos)`. -/
theorem adjust_count_eq_min (o l : Nat) (ho : o ≤ 512) (hl : o + l < 2 ^ 64) :
    adjust_count (o : Int) l = min l (512 - o) := by
  unfold adjust_count DEV_MEM_SIZE
  have h1 : toU64 ((o : Int) + (l : Int)) = o + l := by
    have := toU64_natCast (o + l) hl
    simpa using this
  have h2 : toU64 (((512 : Nat) : Int) - (o : Int)) = 512 - o := by
    have h := toU64_natCast (512 - o) (by omega)
    rw [← h]
    congr 1
    omega
  rw [h1, h2]
  split_ifs with h
  · omega
  · omega

/-- The return value of `copy_to_user` is zero exactly when the user buffer
takes all `n` bytes. -/
theorem copy_to_user_left (ucap : Nat) (mem : Mem) (src : Int) (n : Nat) :
    (copy_to_user ucap mem src n).2 = n - min n ucap := rfl

/-- The region `pcd_read` hands to `copy_to_user` starts at the file position
and has the adjusted length, whatever the helper reports. -/
theorem pcd_read_region (st : State) (ucap count : Nat) :
    (pcd_read st ucap count).src = st.f_pos ∧
      (pcd_read st ucap count).len = adjust_count st.f_pos count := by
  unfold pcd_read
  dsimp only
  split_ifs <;> exact ⟨rfl, rfl⟩

/-- The value `pcd_read` returns is `-EFAULT` or the adjusted count converted
to `ssize_t`. -/
theorem pcd_read_ret_cases (st : State) (ucap count : Nat) :
    (pcd_read st ucap count).ret = -EFAULT ∨
      (pcd_read st ucap count).ret = toS64 (adjust_count st.f_pos count) := by
  unfold pcd_read
  dsimp only
  split_ifs
  · exact Or.inl rfl
  · exact Or.inr rfl

/-! ## Properties of `pcd_read` -/

/-- C1 (as amended): for every file offset `o` with `0 ≤ o ≤ 512` and every
requested length `l` for which `o + l` does not wrap (`o + l < 2^64`), the
byte count `pcd_read` hands to the copy is `min l (512 - o)`, hence at most
`512 - o`; the region handed to the copy, `[o, o + count)`, lies inside
`[0, 512)`; and the value returned is at most `512 - o`. -/
theorem pcd_read_within_buffer (mem : Mem) (ucap o l : Nat)
    (ho : o ≤ 512) (hl : o + l < 2 ^ 64) :
    (pcd_read ⟨mem, (o : Int)⟩ ucap l).len = min l (512 - o) ∧
      (pcd_read ⟨mem, (o : Int)⟩ ucap l).len ≤ 512 - o ∧
      0 ≤ (pcd_read ⟨mem, (o : Int)⟩ ucap l).src ∧
      (pcd_read ⟨mem, (o : Int)⟩ ucap l).src
          + ((pcd_read ⟨mem, (o : Int)⟩ ucap l).len : Int) ≤ (DEV_MEM_SIZE : Int) ∧
      (pcd_read ⟨mem, (o : Int)⟩ ucap l).ret ≤ ((512 - o : Nat) : Int) := by
  obtain ⟨hsrc, hlen⟩ := pcd_read_region ⟨mem, (o : Int)⟩ ucap l
  have hadj := adjust_count_eq_min o l ho hl
  dsimp only at hsrc hlen
  rw [hadj] at hlen
  have hle : min l (512 - o) ≤ 512 - o := Nat.min_le_right _ _
  refine ⟨hlen, by rw [hlen]; exact hle, by rw [hsrc]; positivity, ?_, ?_⟩
  · rw [hsrc, hlen]
    unfold DEV_MEM_SIZE
    omega
  · rcases pcd_read_ret_cases ⟨mem, (o : Int)⟩ ucap l with h | h
    · rw [h]
      unfold EFAULT
      omega
    · rw [h]
      dsimp only
      rw [hadj, toS64_of_range _ (by omega) (by omega)]
      exact_mod_cast hle

/-- Witness for `pcd_read_within_buffer`: offset 500, 100 bytes requested. -/
theorem pcd_read_within_buffer_witness :
    (pcd_read ⟨zeroMem, ((500 : Nat) : Int)⟩ 100 100).len = min 100 (512 - 500) ∧
      (pcd_read ⟨zeroMem, ((500 : Nat) : Int)⟩ 100 100).len ≤ 512 - 500 ∧
      0 ≤ (pcd_read ⟨zeroMem, ((500 : Nat) : Int)⟩ 100 100).src ∧
      (pcd_read ⟨zeroMem, ((500 : Nat) : Int)⟩ 100 100).src
          + ((pcd_read ⟨zeroMem, ((500 : Nat) : Int)⟩ 100 100).len : Int)
            ≤ (DEV_MEM_SIZE : Int) ∧
      (pcd_read ⟨zeroMem, ((500 : Nat) : Int)⟩ 100 100).ret ≤ ((512 - 500 : Nat) : Int) :=
  pcd_read_within_buffer zeroMem 100 500 100 (by decide) (by decide)

/-- C1 as stated fails when `f_pos + count` wraps modulo `2^64`: at offset 1
with `count = 2^64 - 1` the sum is 0, the count is not adjusted, and
`2^64 - 1` bytes starting at index 1 are handed to the copy. -/
theorem pcd_read_wrap_counterexample :
    (1 : Nat) ≤ 512 ∧ 2 ^ 64 - 1 < 2 ^ 64 ∧
      (pcd_read ⟨zeroMem, 1⟩ 0 (2 ^ 64 - 1)).len = 2 ^ 64 - 1 ∧
      ¬ ((pcd_read ⟨zeroMem, 1⟩ 0 (2 ^ 64 - 1)).len ≤ 512 - 1) := by
  decide

/-- C2 at the failing input (offset 513, one byte requested): the count
`pcd_read` and `pcd_write` compute is `2^64 - 1`, not 0, and the region handed
to the copy starts at index 513, outside `[0, 512)`; `pcd_read` then returns
`-1` and moves the offset to 512, `pcd_write` returns `-EFAULT`. -/
theorem pcd_offset_beyond_capacity_eval :
    (pcd_llseek ⟨zeroMem, 0⟩ 513 SEEK_SET).2.f_pos = 513 ∧
      (pcd_read ⟨zeroMem, 513⟩ 0 1).len = 2 ^ 64 - 1 ∧
      (pcd_read ⟨zeroMem, 513⟩ 0 1).src = 513 ∧
      (pcd_read ⟨zeroMem, 513⟩ 0 1).ret = -1 ∧
      (pcd_read ⟨zeroMem, 513⟩ 0 1).st.f_pos = 512 ∧
      (pcd_write ⟨zeroMem, 513⟩ [7] 1).copy = some (513, 2 ^ 64 - 1) ∧
      (pcd_write ⟨zeroMem, 513⟩ [7] 1).ret = -EFAULT := by
  decide

/-- C3 at the failing inputs: when `copy_to_user` copies everything (returns
0), `pcd_read` returns `-EFAULT` and leaves the offset where it was: at offset
0 with 10 bytes requested (the claim: returns 10, offset 10) and at offset 512
(the claim: returns 0). -/
theorem pcd_read_success_returns_efault :
    (copy_to_user 10 zeroMem 0 10).2 = 0 ∧
      (pcd_read ⟨zeroMem, 0⟩ 10 10).len = 10 ∧
      (pcd_read ⟨zeroMem, 0⟩ 10 10).ret = -EFAULT ∧
      (pcd_read ⟨zeroMem, 0⟩ 10 10).st.f_pos = 0 ∧
      (pcd_llseek ⟨zeroMem, 0⟩ 0 SEEK_END).2.f_pos = 512 ∧
      (pcd_read ⟨zeroMem, 512⟩ 10 10).len = 0 ∧
      (pcd_read ⟨zeroMem, 512⟩ 10 10).ret = -EFAULT := by
  decide

/-! ## Properties of `pcd_write` -/

/-- The helper `copy_from_user` reports 0 exactly when the user buffer holds
at least `n` readable bytes. -/
theorem copy_from_user_left_eq_zero (mem : Mem) (dst : Int) (buff : List Nat) (n : Nat) :
    (copy_from_user mem dst buff n).2 = 0 ↔ n ≤ buff.length := by
  unfold copy_from_user
  dsimp only
  omega

/-- Inside the destination region the helper stores the user bytes. -/
theorem copy_from_user_inside (mem : Mem) (dst : Int) (buff : List Nat) (n k : Nat)
    (hk : k < n) : (copy_from_user mem dst buff n).1 (dst + (k : Int)) = buff.getD k 0 := by
  unfold copy_from_user
  dsimp only
  have h1 : dst ≤ dst + (k : Int) ∧ dst + (k : Int) < dst + (n : Int) := by omega
  rw [if_pos h1]
  congr 1
  omega

/-- The outcome of a `pcd_write` whose adjusted count `n` is not 0 and whose
copy from the caller succeeds. -/
theorem pcd_write_success (st : State) (buff : List Nat) (count : Nat)
    (hn : adjust_count st.f_pos count ≠ 0)
    (hcopy : (copy_from_user st.pcd_buffer st.f_pos buff (adjust_count st.f_pos count)).2 = 0) :
    pcd_write st buff count =
      { ret := toS64 (adjust_count st.f_pos count),
        st :=
          { pcd_buffer :=
              if toS64 (st.f_pos + (adjust_count st.f_pos count : Int)) < (DEV_MEM_SIZE : Int) then
                Function.update
                  (copy_from_user st.pcd_buffer st.f_pos buff (adjust_count st.f_pos count)).1
                  (toS64 (st.f_pos + (adjust_count st.f_pos count : Int))) 0
              else (copy_from_user st.pcd_buffer st.f_pos buff (adjust_count st.f_pos count)).1,
            f_pos := toS64 (st.f_pos + (adjust_count st.f_pos count : Int)) },
        copy := some (st.f_pos, adjust_count st.f_pos count) } := by
  unfold pcd_write
  dsimp only
  rw [if_neg hn, if_neg (by simpa using hcopy)]

/-- The outcome of a `pcd_write` whose adjusted count is 0. -/
theorem pcd_write_nospace (st : State) (buff : List Nat) (count : Nat)
    (hn : adjust_count st.f_pos count = 0) :
    pcd_write st buff count = { ret := -ENOMEM, st := st, copy := none } := by
  unfold pcd_write
  dsimp only
  rw [if_pos hn]

/-- C4: for every file offset `o < 512` and requested length `l ≥ 1` with
`o + l` not wrapping, when the copy from the caller succeeds (`copy_from_user`
reports 0 for the `min l (512 - o)` bytes), `pcd_write` returns
`actual_len = min l (512 - o)`, hands exactly the region
`[o, o + actual_len)` to the copy, leaves the first `actual_len` caller bytes
at `pcd_buffer[o .. o + actual_len)`, and sets the file offset to
`o + actual_len`; for `o = 0`, `l = 600` it returns 512 and leaves the offset
at 512. -/
theorem pcd_write_stores_clamped (mem : Mem) (buff : List Nat) (o l : Nat)
    (ho : o < 512) (hl : 1 ≤ l) (hw : o + l < 2 ^ 64)
    (hcopy : (copy_from_user mem (o : Int) buff (min l (512 - o))).2 = 0) :
    (pcd_write ⟨mem, (o : Int)⟩ buff l).ret = ((min l (512 - o) : Nat) : Int) ∧
      (pcd_write ⟨mem, (o : Int)⟩ buff l).copy = some ((o : Int), min l (512 - o)) ∧
      (∀ k : Nat, k < min l (512 - o) →
        buff[k]? = some ((pcd_write ⟨mem, (o : Int)⟩ buff l).st.pcd_buffer ((o : Int) + (k : Int)))) ∧
      (pcd_write ⟨mem, (o : Int)⟩ buff l).st.f_pos = (o : Int) + ((min l (512 - o) : Nat) : Int) ∧
      (o = 0 → l = 600 →
        (pcd_write ⟨mem, (o : Int)⟩ buff l).ret = 512 ∧
          (pcd_write ⟨mem, (o : Int)⟩ buff l).st.f_pos = 512) := by
  have hadj : adjust_count (o : Int) l = min l (512 - o) := adjust_count_eq_min o l (by omega) hw
  have hn1 : 1 ≤ min l (512 - o) := by
    rw [Nat.le_min]
    omega
  have hn2 : min l (512 - o) ≤ 512 - o := Nat.min_le_right _ _
  have hlen : min l (512 - o) ≤ buff.length := (copy_from_user_left_eq_zero _ _ _ _).1 hcopy
  have hout := pcd_write_success ⟨mem, (o : Int)⟩ buff l
    (by dsimp only; rw [hadj]; omega) (by dsimp only; rw [hadj]; exact hcopy)
  dsimp only at hout
  rw [hadj] at hout
  have hret : toS64 ((min l (512 - o) : Nat) : Int) = ((min l (512 - o) : Nat) : Int) :=
    toS64_of_range _ (by omega) (by omega)
  have hpos : toS64 ((o : Int) + ((min l (512 - o) : Nat) : Int))
      = (o : Int) + ((min l (512 - o) : Nat) : Int) :=
    toS64_of_range _ (by omega) (by omega)
  rw [hret, hpos] at hout
  rw [hout]
  dsimp only
  refine ⟨rfl, rfl, ?_, rfl, ?_⟩
  · intro k hk
    have hkl : k < buff.length := by omega
    have hin := copy_from_user_inside mem (o : Int) buff (min l (512 - o)) k hk
    have hget : buff.getD k 0 = buff[k] := by
      simp [List.getD, List.getElem?_eq_getElem hkl]
    have hne : (o : Int) + (k : Int) ≠ (o : Int) + ((min l (512 - o) : Nat) : Int) := by
      omega
    rw [List.getElem?_eq_getElem hkl, ← hget, ← hin]
    split_ifs with hlt
    · rw [Function.update_noteq hne]
    · rfl
  · intro h0 h600
    subst h0 h600
    constructor
    · norm_num
    · norm_num

/-- Witness for `pcd_write_stores_clamped`: 600 bytes requested at offset 0
with a readable user buffer of 600 bytes. -/
theorem pcd_write_stores_clamped_witness :
    (pcd_write ⟨zeroMem, ((0 : Nat) : Int)⟩ (List.replicate 600 7) 600).ret
        = ((min 600 (512 - 0) : Nat) : Int) ∧
      (pcd_write ⟨zeroMem, ((0 : Nat) : Int)⟩ (List.replicate 600 7) 600).copy
        = some (((0 : Nat) : Int), min 600 (512 - 0)) ∧
      (∀ k : Nat, k < min 600 (512 - 0) →
        (List.replicate 600 7)[k]? =
          some ((pcd_write ⟨zeroMem, ((0 : Nat) : Int)⟩ (List.replicate 600 7) 600).st.pcd_buffer
            (((0 : Nat) : Int) + (k : Int)))) ∧
      (pcd_write ⟨zeroMem, ((0 : Nat) : Int)⟩ (List.replicate 600 7) 600).st.f_pos
        = ((0 : Nat) : Int) + ((min 600 (512 - 0) : Nat) : Int) ∧
      ((0 : Nat) = 0 → (600 : Nat) = 600 →
        (pcd_write ⟨zeroMem, ((0 : Nat) : Int)⟩ (List.replicate 600 7) 600).ret = 512 ∧
          (pcd_write ⟨zeroMem, ((0 : Nat) : Int)⟩ (List.replicate 600 7) 600).st.f_pos = 512) :=
  pcd_write_stores_clamped zeroMem (List.replicate 600 7) 0 600 (by decide) (by decide)
    (by decide) (by rw [copy_from_user_left_eq_zero, List.length_replicate]; decide)

/-- C5 as stated fails: a zero-length `pcd_write` at offset 0 returns
`-ENOMEM`, a negative error code, not 0. -/
theorem pcd_write_zero_length_counterexample :
    (0 : Int) ≤ 0 ∧ (0 : Int) ≤ 512 ∧
      (pcd_write ⟨zeroMem, 0⟩ [] 0).ret = -ENOMEM ∧
      (pcd_write ⟨zeroMem, 0⟩ [] 0).ret < 0 ∧
      ¬ ((pcd_write ⟨zeroMem, 0⟩ [] 0).ret = 0) := by
  decide

/-- C5 (as amended): for every file offset `o` with `0 ≤ o ≤ 512`, `pcd_write`
called with a zero-length payload (`count = 0`) takes the `if (!count)` exit:
it returns `-ENOMEM`, calls no copy, and leaves the file offset and
`pcd_buffer` unchanged. -/
theorem pcd_write_zero_length (mem : Mem) (buff : List Nat) (o : Nat) (ho : o ≤ 512) :
    pcd_write ⟨mem, (o : Int)⟩ buff 0 =
      { ret := -ENOMEM, st := ⟨mem, (o : Int)⟩, copy := none } := by
  apply pcd_write_nospace
  have h := adjust_count_eq_min o 0 ho (by omega)
  simpa using h

/-- Witness for `pcd_write_zero_length`: offset 100. -/
theorem pcd_write_zero_length_witness :
    (100 : Nat) ≤ 512 ∧
      pcd_write ⟨zeroMem, ((100 : Nat) : Int)⟩ [1, 2, 3] 0 =
        { ret := -ENOMEM, st := ⟨zeroMem, ((100 : Nat) : Int)⟩, copy := none } :=
  ⟨by decide, pcd_write_zero_length zeroMem [1, 2, 3] 100 (by decide)⟩

/-- C6: at file offset 512 (buffer full), for every requested length `l ≥ 1`
with `512 + l` not wrapping, `pcd_write` fails with `-ENOMEM`, calls no copy
(no byte is transferred), and leaves `pcd_buffer` and the file offset exactly
as they were. -/
theorem pcd_write_full_buffer (mem : Mem) (buff : List Nat) (l : Nat)
    (_hl : 1 ≤ l) (hw : 512 + l < 2 ^ 64) :
    pcd_write ⟨mem, 512⟩ buff l = { ret := -ENOMEM, st := ⟨mem, 512⟩, copy := none } := by
  apply pcd_write_nospace
  have h := adjust_count_eq_min 512 l (by omega) hw
  simpa using h

/-- Witness for `pcd_write_full_buffer`: one byte requested. -/
theorem pcd_write_full_buffer_witness :
    1 ≤ 1 ∧ 512 + 1 < 2 ^ 64 ∧
      pcd_write ⟨zeroMem, 512⟩ [7] 1 = { ret := -ENOMEM, st := ⟨zeroMem, 512⟩, copy := none } :=
  ⟨by decide, by decide, pcd_write_full_buffer zeroMem [7] 1 (by decide) (by decide)⟩

/-- Outside the destination region the helper leaves every byte as it was. -/
theorem copy_from_user_outside (mem : Mem) (dst : Int) (buff : List Nat) (n : Nat) (i : Int)
    (hi : i < dst ∨ dst + (n : Int) ≤ i) : (copy_from_user mem dst buff n).1 i = mem i := by
  unfold copy_from_user
  dsimp only
  rw [if_neg (by omega)]

/-- C15: for every successful `pcd_write` that stores `n ≥ 1` bytes at offset
`o` (`n = min l (512 - o)`, so `o + n ≤ 512`), every byte of `pcd_buffer` at an
index outside `[o, o + n)` keeps its previous value, except that when
`o + n < 512` the single byte at index `o + n` is overwritten with 0; no index
`≥ 512` is written. -/
theorem pcd_write_frame (mem : Mem) (buff : List Nat) (o l : Nat)
    (ho : o < 512) (hl : 1 ≤ l) (hw : o + l < 2 ^ 64)
    (hcopy : (copy_from_user mem (o : Int) buff (min l (512 - o))).2 = 0) :
    1 ≤ min l (512 - o) ∧ o + min l (512 - o) ≤ 512 ∧
      (pcd_write ⟨mem, (o : Int)⟩ buff l).ret = ((min l (512 - o) : Nat) : Int) ∧
      (∀ i : Int, i < (o : Int) ∨ (o : Int) + ((min l (512 - o) : Nat) : Int) ≤ i →
        (pcd_write ⟨mem, (o : Int)⟩ buff l).st.pcd_buffer i =
          if i = (o : Int) + ((min l (512 - o) : Nat) : Int) ∧ o + min l (512 - o) < 512 then 0
          else mem i) ∧
      (∀ i : Int, 512 ≤ i → (pcd_write ⟨mem, (o : Int)⟩ buff l).st.pcd_buffer i = mem i) := by
  have hadj : adjust_count (o : Int) l = min l (512 - o) := adjust_count_eq_min o l (by omega) hw
  have hn1 : 1 ≤ min l (512 - o) := by
    rw [Nat.le_min]
    omega
  have hn2 : min l (512 - o) ≤ 512 - o := Nat.min_le_right _ _
  have hout := pcd_write_success ⟨mem, (o : Int)⟩ buff l
    (by dsimp only; rw [hadj]; omega) (by dsimp only; rw [hadj]; exact hcopy)
  dsimp only at hout
  rw [hadj] at hout
  have hret : toS64 ((min l (512 - o) : Nat) : Int) = ((min l (512 - o) : Nat) : Int) :=
    toS64_of_range _ (by omega) (by omega)
  have hpos : toS64 ((o : Int) + ((min l (512 - o) : Nat) : Int))
      = (o : Int) + ((min l (512 - o) : Nat) : Int) :=
    toS64_of_range _ (by omega) (by omega)
  rw [hret, hpos] at hout
  rw [hout]
  dsimp only
  unfold DEV_MEM_SIZE
  have frame : ∀ i : Int, i < (o : Int) ∨ (o : Int) + ((min l (512 - o) : Nat) : Int) ≤ i →
      (if (o : Int) + ((min l (512 - o) : Nat) : Int) < ((512 : Nat) : Int) then
          Function.update (copy_from_user mem (o : Int) buff (min l (512 - o))).1
            ((o : Int) + ((min l (512 - o) : Nat) : Int)) 0
        else (copy_from_user mem (o : Int) buff (min l (512 - o))).1) i =
        if i = (o : Int) + ((min l (512 - o) : Nat) : Int) ∧ o + min l (512 - o) < 512 then 0
        else mem i := by
    intro i hi
    have hmem := copy_from_user_outside mem (o : Int) buff (min l (512 - o)) i hi
    by_cases hlt : o + min l (512 - o) < 512
    · rw [if_pos (by omega)]
      by_cases hieq : i = (o : Int) + ((min l (512 - o) : Nat) : Int)
      · rw [if_pos ⟨hieq, hlt⟩, hieq, Function.update_same]
      · rw [if_neg (fun h => hieq h.1), Function.update_noteq hieq, hmem]
    · rw [if_neg (by omega), if_neg (fun h => hlt h.2), hmem]
  refine ⟨hn1, by omega, rfl, frame, ?_⟩
  intro i hi
  rw [frame i (Or.inr (by omega)), if_neg]
  intro h
  omega

/-- Witness for `pcd_write_frame`: three bytes written at offset 10. -/
theorem pcd_write_frame_witness :
    1 ≤ min 3 (512 - 10) ∧ 10 + min 3 (512 - 10) ≤ 512 ∧
      (pcd_write ⟨zeroMem, ((10 : Nat) : Int)⟩ [7, 8, 9] 3).ret
        = ((min 3 (512 - 10) : Nat) : Int) ∧
      (∀ i : Int, i < ((10 : Nat) : Int) ∨
          ((10 : Nat) : Int) + ((min 3 (512 - 10) : Nat) : Int) ≤ i →
        (pcd_write ⟨zeroMem, ((10 : Nat) : Int)⟩ [7, 8, 9] 3).st.pcd_buffer i =
          if i = ((10 : Nat) : Int) + ((min 3 (512 - 10) : Nat) : Int) ∧
              10 + min 3 (512 - 10) < 512 then 0
          else zeroMem i) ∧
      (∀ i : Int, 512 ≤ i →
        (pcd_write ⟨zeroMem, ((10 : Nat) : Int)⟩ [7, 8, 9] 3).st.pcd_buffer i = zeroMem i) :=
  pcd_write_frame zeroMem [7, 8, 9] 10 3 (by decide) (by decide) (by decide) (by decide)

/-! ## Properties of `pcd_llseek` -/

/-- For the three valid modes `pcd_llseek` stores and returns the computed
offset, provided it is within the range of `loff_t`. -/
theorem pcd_llseek_valid_whence (mem : Mem) (c d whence : Int)
    (hw : whence = SEEK_SET ∨ whence = SEEK_CUR ∨ whence = SEEK_END)
    (h0 : -(2 ^ 63) ≤ spec_new_offset c d whence) (h1 : spec_new_offset c d whence < 2 ^ 63) :
    pcd_llseek ⟨mem, c⟩ d whence =
      (spec_new_offset c d whence, ⟨mem, spec_new_offset c d whence⟩) := by
  rcases hw with hw | hw | hw
  · subst hw
    unfold pcd_llseek spec_new_offset
    simp
  · subst hw
    have hs : spec_new_offset c d SEEK_CUR = c + d := by
      unfold spec_new_offset SEEK_CUR SEEK_SET
      simp
    rw [hs] at h0 h1 ⊢
    unfold pcd_llseek
    rw [if_neg (by decide), if_pos rfl]
    dsimp only
    rw [toS64_of_range _ h0 h1]
  · subst hw
    have hs : spec_new_offset c d SEEK_END = (DEV_MEM_SIZE : Int) + d := by
      unfold spec_new_offset SEEK_END SEEK_CUR SEEK_SET
      simp
    rw [hs] at h0 h1 ⊢
    unfold pcd_llseek
    rw [if_neg (by decide), if_neg (by decide), if_pos rfl]
    dsimp only
    rw [toS64_of_range _ h0 h1]

/-- C7 as stated fails: `SEEK_SET` with delta `-5` computes a negative offset,
yet `pcd_llseek` does not return `-EINVAL`: it returns `-5` and has stored
`-5` in `f_pos`, whose prior value was 0. -/
theorem pcd_llseek_negative_counterexample :
    spec_new_offset 0 (-5) SEEK_SET < 0 ∧
      (pcd_llseek ⟨zeroMem, 0⟩ (-5) SEEK_SET).1 = -5 ∧
      (pcd_llseek ⟨zeroMem, 0⟩ (-5) SEEK_SET).1 < 0 ∧
      ¬ ((pcd_llseek ⟨zeroMem, 0⟩ (-5) SEEK_SET).1 = -EINVAL) ∧
      ¬ ((pcd_llseek ⟨zeroMem, 0⟩ (-5) SEEK_SET).2.f_pos = 0) := by
  decide

/-- C7 (as amended): for every current offset `c`, delta `d` and mode: if the
mode is none of the three, `pcd_llseek` fails with `-EINVAL` and leaves
`pcd_buffer` and `f_pos` (at `c`) as they were; if the mode is one of the
three, `pcd_llseek` makes no sign check: it stores the computed offset (`d`,
`c + d` or `512 + d`, within the range of `loff_t`) in `f_pos` and returns it,
also when it is negative. -/
theorem pcd_llseek_einval_iff_unknown_whence (mem : Mem) (c d whence : Int) :
    (whence ≠ SEEK_SET → whence ≠ SEEK_CUR → whence ≠ SEEK_END →
        pcd_llseek ⟨mem, c⟩ d whence = (-EINVAL, ⟨mem, c⟩)) ∧
      ((whence = SEEK_SET ∨ whence = SEEK_CUR ∨ whence = SEEK_END) →
        -(2 ^ 63) ≤ spec_new_offset c d whence → spec_new_offset c d whence < 2 ^ 63 →
        pcd_llseek ⟨mem, c⟩ d whence =
          (spec_new_offset c d whence, ⟨mem, spec_new_offset c d whence⟩)) := by
  constructor
  · intro h1 h2 h3
    unfold pcd_llseek
    rw [if_neg h1, if_neg h2, if_neg h3]
  · exact pcd_llseek_valid_whence mem c d whence

/-- Witness for `pcd_llseek_einval_iff_unknown_whence`: mode 9 at offset 7 is
refused; `SEEK_CUR` with delta `-10` at offset 7 stores and returns `-3`. -/
theorem pcd_llseek_einval_iff_unknown_whence_witness :
    pcd_llseek ⟨zeroMem, 7⟩ 3 9 = (-EINVAL, ⟨zeroMem, 7⟩) ∧
      pcd_llseek ⟨zeroMem, 7⟩ (-10) SEEK_CUR =
        (spec_new_offset 7 (-10) SEEK_CUR, ⟨zeroMem, spec_new_offset 7 (-10) SEEK_CUR⟩) ∧
      spec_new_offset 7 (-10) SEEK_CUR = -3 :=
  ⟨(pcd_llseek_einval_iff_unknown_whence zeroMem 7 3 9).1 (by decide) (by decide) (by decide),
   (pcd_llseek_einval_iff_unknown_whence zeroMem 7 (-10) SEEK_CUR).2 (Or.inr (Or.inl rfl))
     (by decide) (by decide),
   by decide⟩

/-- C8: for every current offset `c ≥ 0` and delta `d` whose result is
non-negative and does not overflow `loff_t`, `pcd_llseek` stores and returns
`new_offset = d` for `SEEK_SET`, `c + d` for `SEEK_CUR` and `512 + d` for
`SEEK_END`; the result is not clamped to 512 and `pcd_buffer` is the same
afterwards. -/
theorem pcd_llseek_stores_new_offset (mem : Mem) (c d whence : Int)
    (hw : whence = SEEK_SET ∨ whence = SEEK_CUR ∨ whence = SEEK_END) (_hc : 0 ≤ c)
    (h0 : 0 ≤ spec_new_offset c d whence) (h1 : spec_new_offset c d whence < 2 ^ 63) :
    (pcd_llseek ⟨mem, c⟩ d whence).1 = spec_new_offset c d whence ∧
      (pcd_llseek ⟨mem, c⟩ d whence).2.f_pos = spec_new_offset c d whence ∧
      (pcd_llseek ⟨mem, c⟩ d whence).2.pcd_buffer = mem ∧
      (whence = SEEK_SET → spec_new_offset c d whence = d) ∧
      (whence = SEEK_CUR → spec_new_offset c d whence = c + d) ∧
      (whence = SEEK_END → spec_new_offset c d whence = 512 + d) := by
  have hneg : -(2 ^ 63) ≤ spec_new_offset c d whence := by linarith
  have h := pcd_llseek_valid_whence mem c d whence hw hneg h1
  rw [h]
  refine ⟨rfl, rfl, rfl, ?_, ?_, ?_⟩
  · intro e
    subst e
    unfold spec_new_offset
    simp
  · intro e
    subst e
    unfold spec_new_offset SEEK_CUR SEEK_SET
    simp
  · intro e
    subst e
    unfold spec_new_offset SEEK_END SEEK_CUR SEEK_SET DEV_MEM_SIZE
    simp

/-- Witness for `pcd_llseek_stores_new_offset`: `SEEK_CUR` with delta 900 at
offset 100 stores and returns 1000, beyond the capacity 512. -/
theorem pcd_llseek_stores_new_offset_witness :
    spec_new_offset 100 900 SEEK_CUR = 1000 ∧
      (pcd_llseek ⟨zeroMem, 100⟩ 900 SEEK_CUR).1 = spec_new_offset 100 900 SEEK_CUR ∧
      (pcd_llseek ⟨zeroMem, 100⟩ 900 SEEK_CUR).2.f_pos = spec_new_offset 100 900 SEEK_CUR ∧
      (pcd_llseek ⟨zeroMem, 100⟩ 900 SEEK_CUR).2.pcd_buffer = zeroMem :=
  ⟨by decide,
   (pcd_llseek_stores_new_offset zeroMem 100 900 SEEK_CUR (Or.inr (Or.inl rfl)) (by decide)
     (by decide) (by decide)).1,
   (pcd_llseek_stores_new_offset zeroMem 100 900 SEEK_CUR (Or.inr (Or.inl rfl)) (by decide)
     (by decide) (by decide)).2.1,
   (pcd_llseek_stores_new_offset zeroMem 100 900 SEEK_CUR (Or.inr (Or.inl rfl)) (by decide)
     (by decide) (by decide)).2.2.1⟩

/-! ## Properties of `pcd_open` -/

/-- C9 as stated fails: for a read-only descriptor and a file opened for
writing the permission forbids the requested mode, yet `pcd_open` returns 0,
not a negative error code. -/
theorem pcd_open_permission_counterexample :
    forbids Perm.RDONLY FMODE_WRITE = true ∧
      (pcd_open ⟨⟨512, Perm.RDONLY, "PCDEV0011AA"⟩⟩ ⟨FMODE_WRITE, 0⟩).1 = 0 ∧
      ¬ ((pcd_open ⟨⟨512, Perm.RDONLY, "PCDEV0011AA"⟩⟩ ⟨FMODE_WRITE, 0⟩).1 < 0) := by
  decide

/-- C9 (as amended): for every device descriptor, every requested access mode
and every file position, `pcd_open` makes no permission check: it succeeds
(returns 0) whatever the descriptor's permission and leaves the file, its
cursor and its mode, exactly as it received it; in particular the cursor of a
file handed over at position 0 is at 0 afterwards. -/
theorem pcd_open_always_succeeds (ino : inode) (flip : file) :
    (pcd_open ino flip).1 = 0 ∧ (pcd_open ino flip).2 = flip ∧
      (pcd_open ino flip).2.f_pos = flip.f_pos ∧
      (pcd_open ino flip).2.f_mode = flip.f_mode ∧
      (pcd_open ino ⟨flip.f_mode, 0⟩).2.f_pos = 0 :=
  ⟨rfl, rfl, rfl, rfl, rfl⟩

/-! ## Properties of the device setup -/

/-- C10: starting from an empty registry, `pcdev_platform_init` registers
exactly two descriptors, in this order: ("pcd-char-device", id 0, size 512,
RDWR, "PCDEV0011AA") then ("pcd-char-device", id 1, size 1024, RDWR,
"PCDEV0022BB"); their `(name, id)` keys are distinct, their serials are
distinct, both names equal the platform driver's match name, and matching by
the name "pcd-char-device" selects both in registration order. -/
theorem pcdev_platform_init_registers_two :
    (pcdev_platform_init []).1 = 0 ∧
      (pcdev_platform_init []).2 =
        [ { name := "pcd-char-device", id := 0,
            platform_data := { size := 512, perm := Perm.RDWR, serial_number := "PCDEV0011AA" } },
          { name := "pcd-char-device", id := 1,
            platform_data :=
              { size := 1024, perm := Perm.RDWR, serial_number := "PCDEV0022BB" } } ] ∧
      (pcdev_platform_init []).2 = [platform_pcdev_1, platform_pcdev_2] ∧
      (platform_pcdev_1.name, platform_pcdev_1.id) ≠ (platform_pcdev_2.name, platform_pcdev_2.id) ∧
      platform_pcdev_1.platform_data.serial_number ≠
        platform_pcdev_2.platform_data.serial_number ∧
      platform_pcdev_1.name = pcd_platform_driver.name ∧
      platform_pcdev_2.name = pcd_platform_driver.name ∧
      pcd_platform_driver.name = "pcd-char-device" ∧
      match_by_name (pcdev_platform_init []).2 "pcd-char-device" =
        [platform_pcdev_1, platform_pcdev_2] := by
  decide

end Pcd

/-! # Properties of the kernel thread demos -/

namespace Kthread

/-- C13 on the code, at a module load in which both `kthread_run` calls
succeed: in the mutex, spinlock, seqlock and wait-queue demos module init
starts both worker threads first and initialises the synchronisation object
last, so the claimed order does not hold; and when only the second
`kthread_run` fails, the first worker runs and the object is never
initialised. -/
theorem module_init_starts_workers_first :
    (mutex_module_init none none).2 =
        [Act.run "thread_th1", Act.run "thread_th2", Act.sync_init "my_mutex"] ∧
      init_precedes_workers (mutex_module_init none none).2 = false ∧
      (module_spinlock_init none none).2 =
        [Act.run "Thread_th1", Act.run "Thread_th2", Act.sync_init "my_lock"] ∧
      init_precedes_workers (module_spinlock_init none none).2 = false ∧
      (module_seqlock_init none none).2 =
        [Act.run "thread_th1", Act.run "thread_th2", Act.sync_init "my_seqlock"] ∧
      init_precedes_workers (module_seqlock_init none none).2 = false ∧
      (waitqueue_module_init none none).2 =
        [Act.run "dispatcher_instance", Act.run "handler_instance", Act.sync_init "wq"] ∧
      init_precedes_workers (waitqueue_module_init none none).2 = false ∧
      (mutex_module_init none (some (-12))).2 = [Act.run "thread_th1"] := by
  decide

/-- C14 on the code, at an unload after a successful load: the spinlock demo
has started `Thread_th1` and `Thread_th2`, and `module_spinlock_exit` issues
`kthread_stop` twice for `Thread_th2` and never for `Thread_th1`; the mutex
demo issues it once for `thread_th1` and once for `thread_th2`. -/
theorem module_spinlock_exit_stops_th2_twice :
    started (module_spinlock_init none none).2 = ["Thread_th1", "Thread_th2"] ∧
      module_spinlock_exit = [Act.stop "Thread_th2", Act.stop "Thread_th2"] ∧
      stops_of "Thread_th1" module_spinlock_exit = 0 ∧
      stops_of "Thread_th2" module_spinlock_exit = 2 ∧
      started (mutex_module_init none none).2 = ["thread_th1", "thread_th2"] ∧
      stops_of "thread_th1" mutex_module_exit = 1 ∧
      stops_of "thread_th2" mutex_module_exit = 1 := by
  decide

end Kthread

namespace Waitqueue

/-- A handler in the wait whose condition is false and that has no
notification pending stays there, however often it is woken. -/
theorem handler_step_blocked (h : Handler) (hpc : h.pc = HandlerPc.waiting)
    (hc : wait_condition h = false) (hn : h.notify_signal = false) (n : Nat) :
    handler_step^[n] h = h := by
  induction n with
  | zero => rfl
  | succ k ih =>
    rw [Function.iterate_succ_apply', ih]
    unfold handler_step wait_event_interruptible
    rw [hpc]
    dsimp only
    rw [hc, hn]
    simp

/-- C12 as stated fails: for a handler blocked in the wait with `g_event = 0`,
once the stop has been requested the condition it waits on, `g_event == 1`, is
still false: a stop request does not satisfy it. -/
theorem handler_wait_condition_counterexample :
    ({ g_event := 0, should_stop := true, notify_signal := true,
       pc := HandlerPc.waiting } : Handler).should_stop = true ∧
      wait_condition { g_event := 0, should_stop := true, notify_signal := true,
                       pc := HandlerPc.waiting } = false ∧
      ¬ (wait_condition { g_event := 0, should_stop := true, notify_signal := true,
                          pc := HandlerPc.waiting } = true) := by
  decide

/-- C12 (as amended): for the handler task, whatever the value `g` of
`g_event`: without a stop request a handler blocked with `g ≠ 1` stays in its
wait however often it is woken; once `kthread_stop` has been called for it the
condition it waits on is still `g_event == 1` (it is not satisfied by the stop
request), but the wait returns, with `-ERESTARTSYS` when `g ≠ 1`, through the
notification `kthread_stop` raises, so the handler leaves its wait and, at
its next loop test, exits its loop, without a further signal from the
dispatcher. -/
theorem handler_stop_leaves_wait (g : Int) :
    (g ≠ 1 → ∀ n : Nat,
        (handler_step^[n] ⟨g, false, false, HandlerPc.waiting⟩).pc = HandlerPc.waiting) ∧
      wait_condition ⟨g, true, true, HandlerPc.waiting⟩ = decide (g = 1) ∧
      (g ≠ 1 → wait_event_interruptible ⟨g, true, true, HandlerPc.waiting⟩
        = some (-ERESTARTSYS)) ∧
      kthread_stop ⟨g, false, false, HandlerPc.waiting⟩ = ⟨0, true, true, HandlerPc.loop_test⟩ ∧
      handler_step (kthread_stop ⟨g, false, false, HandlerPc.waiting⟩)
        = ⟨0, true, true, HandlerPc.exited⟩ := by
  have hcond : ∀ a b : Bool, wait_condition ⟨g, a, b, HandlerPc.waiting⟩ = decide (g = 1) := by
    intro a b
    unfold wait_condition
    by_cases hg : g = 1 <;> simp [hg]
  have hstop : kthread_stop ⟨g, false, false, HandlerPc.waiting⟩
      = ⟨0, true, true, HandlerPc.loop_test⟩ := by
    unfold kthread_stop handler_step wait_event_interruptible
    dsimp only
    rw [hcond]
    by_cases hg : g = 1 <;> simp [hg]
  refine ⟨?_, hcond true true, ?_, hstop, ?_⟩
  · intro hg n
    rw [handler_step_blocked _ rfl (by rw [hcond]; simp [hg]) rfl]
  · intro hg
    unfold wait_event_interruptible
    rw [hcond]
    simp [hg]
  · rw [hstop]
    rfl

/-- Witness for `handler_stop_leaves_wait`: a handler blocked with
`g_event = 0`. -/
theorem handler_stop_leaves_wait_witness :
    (∀ n : Nat, (handler_step^[n] ⟨0, false, false, HandlerPc.waiting⟩).pc
        = HandlerPc.waiting) ∧
      wait_event_interruptible ⟨0, true, true, HandlerPc.waiting⟩ = some (-ERESTARTSYS) ∧
      handler_step (kthread_stop ⟨0, false, false, HandlerPc.waiting⟩)
        = ⟨0, true, true, HandlerPc.exited⟩ :=
  ⟨(handler_stop_leaves_wait 0).1 (by decide),
   (handler_stop_leaves_wait 0).2.2.1 (by decide),
   (handler_stop_leaves_wait 0).2.2.2.2⟩

end Waitqueue

/-! # Properties of the lock demos -/

namespace Locked

/-- Incrementing a wrapped value and wrapping again is wrapping the
incremented value. -/
theorem toS32_succ (a : Int) : toS32 (toS32 a + 1) = toS32 (a + 1) := by
  unfold toS32
  omega

/-- In the range of `int` the conversion changes nothing. -/
theorem toS32_of_range (x : Int) (h0 : -(2 ^ 31) ≤ x) (h1 : x < 2 ^ 31) : toS32 x = x := by
  unfold toS32
  omega

/-- Replacing one thread changes the sum of the credits by the difference of
the two credits. -/
theorem sum_credit_set (l : List Thread) (i : Nat) (th th1 : Thread)
    (hget : l[i]? = some th) :
    ((l.set i th1).map credit).sum + credit th = (l.map credit).sum + credit th1 := by
  induction l generalizing i with
  | nil => simp at hget
  | cons a l ih =>
    cases i with
    | zero =>
      rw [List.getElem?_cons_zero] at hget
      injection hget with hget
      subst hget
      simp only [List.set_cons_zero, List.map_cons, List.sum_cons]
      omega
    | succ k =>
      rw [List.getElem?_cons_succ] at hget
      have h := ih k hget
      simp only [List.set_cons_succ, List.map_cons, List.sum_cons]
      omega

/-- Replacing a thread by one of the same kind keeps the kinds of all
threads. -/
theorem map_role_set (l : List Thread) (i : Nat) (th th1 : Thread)
    (hget : l[i]? = some th) (hrole : th1.role = th.role) :
    (l.set i th1).map Thread.role = l.map Thread.role := by
  induction l generalizing i with
  | nil => simp at hget
  | cons a l ih =>
    cases i with
    | zero =>
      rw [List.getElem?_cons_zero] at hget
      injection hget with hget
      subst hget
      simp only [List.set_cons_zero, List.map_cons, hrole]
    | succ k =>
      rw [List.getElem?_cons_succ] at hget
      simp only [List.set_cons_succ, List.map_cons, ih k hget]

/-- A thread found in a list after one position was replaced is the
replacement, or a thread that was there before at another position. -/
theorem getElem?_set_cases (l : List Thread) (i j : Nat) (th1 tj : Thread)
    (h : (l.set i th1)[j]? = some tj) : (j = i ∧ tj = th1) ∨ (j ≠ i ∧ l[j]? = some tj) := by
  rw [List.getElem?_set] at h
  by_cases hij : i = j
  · rw [if_pos hij] at h
    split_ifs at h
    · injection h with h
      exact Or.inl ⟨hij.symm, h.symm⟩
  · rw [if_neg hij] at h
    exact Or.inr ⟨fun e => hij e.symm, h⟩

/-- Preservation of the invariant when thread `i` is replaced and the lock
holder and the counter are changed, under the conditions each step has to
meet. -/
theorem inv_update (s : Sys) (i : Nat) (th th1 : Thread) (g r : Int) (o : Option Nat)
    (rd : Nat) (hinv : Inv s) (hget : s.threads[i]? = some th)
    (hE1 : th1.role = Role.writer → in_critical_section th1.pc = true → o = some i)
    (hE2 : ∀ j, j ≠ i → s.owner = some j → o = some j)
    (hL1 : th1.role = Role.writer → th1.pc = Pc.store → th1.tmp = g)
    (hL2 : ∀ (j : Nat) (tj : Thread), j ≠ i → s.threads[j]? = some tj →
      tj.role = Role.writer → tj.pc = Pc.store → tj.tmp = g)
    (hT : ∀ S : Nat, S + credit th = (s.threads.map credit).sum + credit th1 →
      g = toS32 (S : Int)) :
    Inv { global_var := g, g_read_var := r, owner := o, readers := rd,
          threads := s.threads.set i th1 } := by
  obtain ⟨hexcl, hload, _⟩ := hinv
  refine ⟨?_, ?_, ?_⟩
  · intro j tj hj hw hcs
    dsimp only at hj ⊢
    rcases getElem?_set_cases _ _ _ _ _ hj with ⟨hji, htj⟩ | ⟨hji, htj⟩
    · subst hji htj
      exact hE1 hw hcs
    · exact hE2 j hji (hexcl j tj htj hw hcs)
  · intro j tj hj hw hpc
    dsimp only at hj ⊢
    rcases getElem?_set_cases _ _ _ _ _ hj with ⟨hji, htj⟩ | ⟨hji, htj⟩
    · subst hji htj
      exact hL1 hw hpc
    · exact hL2 j tj hji htj hw hpc
  · dsimp only
    exact hT _ (sum_credit_set s.threads i th th1 hget)

/-- A step of a thread preserves the invariant. -/
theorem thread_step_inv (s s1 : Sys) (i : Nat) (th : Thread) (hinv : Inv s)
    (hget : s.threads[i]? = some th) (h : thread_step s i th = some s1) : Inv s1 := by
  obtain ⟨hexcl, hload, htot⟩ := id hinv
  have hE2 : ∀ j, j ≠ i → s.owner = some j → s.owner = some j := fun _ _ e => e
  have hL2 : ∀ (j : Nat) (tj : Thread), j ≠ i → s.threads[j]? = some tj →
      tj.role = Role.writer → tj.pc = Pc.store → tj.tmp = s.global_var :=
    fun j tj _ hj hw hp => hload j tj hj hw hp
  have hTeq : ∀ th1 : Thread, credit th1 = credit th →
      ∀ S : Nat, S + credit th = (s.threads.map credit).sum + credit th1 →
        s.global_var = toS32 (S : Int) := by
    intro th1 hc S hS
    have hSeq : S = (s.threads.map credit).sum := by omega
    rw [hSeq]
    exact htot
  obtain ⟨role, pc, tmp, iters, ss⟩ := th
  cases pc <;> cases role <;> simp only [thread_step] at h
  -- loop test, writer
  · injection h with h
    subst h
    refine inv_update s i _ _ _ _ _ _ hinv hget ?_ hE2 ?_ hL2 (hTeq _ ?_)
    · cases ss <;> simp [in_critical_section]
    · cases ss <;> simp
    · cases ss <;> simp [credit]
  -- loop test, reader
  · injection h with h
    subst h
    refine inv_update s i _ _ _ _ _ _ hinv hget ?_ hE2 ?_ hL2 (hTeq _ ?_)
    · simp
    · simp
    · simp [credit]
  -- lock, writer
  · split_ifs at h with hfree
    injection h with h
    subst h
    refine inv_update s i _ _ _ _ _ _ hinv hget ?_ ?_ ?_ hL2 (hTeq _ ?_)
    · intro _ _
      rfl
    · intro j _ hj
      rw [hfree.1] at hj
      exact absurd hj (by simp)
    · simp
    · simp [credit]
  -- lock, reader
  · split_ifs at h with hfree
    injection h with h
    subst h
    refine inv_update s i _ _ _ _ _ _ hinv hget ?_ hE2 ?_ hL2 (hTeq _ ?_)
    · simp
    · simp
    · simp [credit]
  -- load, writer
  · injection h with h
    subst h
    refine inv_update s i _ _ _ _ _ _ hinv hget ?_ hE2 ?_ hL2 (hTeq _ ?_)
    · intro _ _
      exact hexcl i _ hget rfl rfl
    · intro _ _
      rfl
    · simp [credit]
  -- load, reader
  · injection h with h
    subst h
    refine inv_update s i _ _ _ _ _ _ hinv hget ?_ hE2 ?_ hL2 (hTeq _ ?_)
    · simp
    · simp
    · simp [credit]
  -- store, writer
  · injection h with h
    subst h
    have hown : s.owner = some i := hexcl i _ hget rfl rfl
    have htmp : tmp = s.global_var := hload i _ hget rfl rfl
    refine inv_update s i _ _ _ _ _ _ hinv hget ?_ hE2 ?_ ?_ ?_
    · intro _ _
      exact hown
    · simp
    · intro j tj hji hj hw hp
      have hoj : s.owner = some j := hexcl j tj hj hw (by rw [hp]; rfl)
      rw [hown] at hoj
      injection hoj with hoj
      exact absurd hoj.symm hji
    · intro S hS
      have hSeq : S = (s.threads.map credit).sum + 1 := by
        simp [credit] at hS
        omega
      rw [hSeq, htmp, htot, toS32_succ]
      push_cast
      rfl
  -- store, reader: no such step
  · cases h
  -- unlock, writer
  · injection h with h
    subst h
    have hown : s.owner = some i := hexcl i _ hget rfl rfl
    refine inv_update s i _ _ _ _ _ _ hinv hget ?_ ?_ ?_ hL2 (hTeq _ ?_)
    · simp [in_critical_section]
    · intro j hji hj
      rw [hown] at hj
      injection hj with hj
      exact absurd hj.symm hji
    · simp
    · simp [credit]
  -- unlock, reader
  · injection h with h
    subst h
    refine inv_update s i _ _ _ _ _ _ hinv hget ?_ hE2 ?_ hL2 (hTeq _ ?_)
    · simp
    · simp
    · simp [credit]
  -- returned: no step
  · cases h
  · cases h

/-- A thread step replaces the stepping thread by one of the same kind. -/
theorem thread_step_roles (s s1 : Sys) (i : Nat) (th : Thread)
    (hget : s.threads[i]? = some th) (h : thread_step s i th = some s1) :
    s1.threads.map Thread.role = s.threads.map Thread.role := by
  obtain ⟨role, pc, tmp, iters, ss⟩ := th
  cases pc <;> cases role <;> simp only [thread_step] at h <;>
    first
      | (injection h with h
         subst h
         exact map_role_set _ _ _ _ hget rfl)
      | (split_ifs at h
         injection h with h
         subst h
         exact map_role_set _ _ _ _ hget rfl)
      | cases h

/-- An event of a schedule preserves the invariant and the kinds of the
threads, provided a lock initialisation does not hit a lock a writer holds. -/
theorem step_inv (s s1 : Sys) (e : Event) (hinv : Inv s) (h : step s e = some s1)
    (hsafe : e = Event.lock_init → s.owner = none) :
    Inv s1 ∧ s1.threads.map Thread.role = s.threads.map Thread.role := by
  cases e with
  | lock_init =>
    simp only [step] at h
    injection h with h
    subst h
    obtain ⟨hexcl, hload, htot⟩ := id hinv
    have hfree : s.owner = none := hsafe rfl
    refine ⟨⟨?_, hload, htot⟩, rfl⟩
    intro i th hget hw hcs
    have hown := hexcl i th hget hw hcs
    rw [hfree] at hown
    cases hown
  | run i =>
    simp only [step] at h
    cases hget : s.threads[i]? with
    | none =>
      rw [hget] at h
      cases h
    | some th =>
      rw [hget] at h
      exact ⟨thread_step_inv s s1 i th hinv hget h, thread_step_roles s s1 i th hget h⟩
  | stop i =>
    simp only [step] at h
    cases hget : s.threads[i]? with
    | none =>
      rw [hget] at h
      cases h
    | some th =>
      rw [hget] at h
      injection h with h
      subst h
      obtain ⟨hexcl, hload, htot⟩ := id hinv
      refine ⟨inv_update s i th _ _ _ _ _ hinv hget ?_ (fun _ _ e => e) ?_
        (fun j tj _ hj hw hp => hload j tj hj hw hp) ?_, map_role_set _ _ _ _ hget rfl⟩
      · intro hw hcs
        exact hexcl i th hget hw hcs
      · intro hw hp
        exact hload i th hget hw hp
      · intro S hS
        have hc : credit { th with should_stop := true } = credit th := rfl
        rw [hc] at hS
        have hSeq : S = (s.threads.map credit).sum := by omega
        rw [hSeq]
        exact htot

/-- A schedule preserves the invariant and the kinds of the threads, provided
no lock initialisation in it hits a lock a writer holds. -/
theorem exec_inv (sched : List Event) (s s1 : Sys) (hinv : Inv s)
    (h : exec s sched = some s1) (hsafe : init_on_unheld s sched = true) :
    Inv s1 ∧ s1.threads.map Thread.role = s.threads.map Thread.role := by
  induction sched generalizing s with
  | nil =>
    simp only [exec] at h
    injection h with h
    subst h
    exact ⟨hinv, rfl⟩
  | cons e es ih =>
    simp only [exec] at h
    simp only [init_on_unheld, Bool.and_eq_true] at hsafe
    obtain ⟨hsafe1, hsafe2⟩ := hsafe
    cases hstep : step s e with
    | none =>
      rw [hstep] at h
      cases h
    | some s2 =>
      rw [hstep] at h hsafe2
      have hfree : e = Event.lock_init → s.owner = none := by
        intro he
        subst he
        simpa [Option.isNone_iff_eq_none] using hsafe1
      obtain ⟨hinv2, hroles2⟩ := step_inv s s2 e hinv hstep hfree
      obtain ⟨hinv1, hroles1⟩ := ih s2 hinv2 h hsafe2
      exact ⟨hinv1, hroles1.trans hroles2⟩

/-- The sum of the credits of freshly started threads is 0. -/
theorem sum_credit_fresh (n : Nat) (r : Role) :
    ((List.replicate n (fresh r)).map credit).sum = 0 := by
  induction n with
  | zero => rfl
  | succ k ih =>
    rw [List.replicate_succ, List.map_cons, List.sum_cons, ih]
    cases r <;> rfl

/-- The start satisfies the invariant. -/
theorem init_inv (W R : Nat) : Inv (init W R) := by
  refine ⟨?_, ?_, ?_⟩
  · intro i th hget _ hcs
    have hmem : th ∈ (init W R).threads := List.mem_iff_getElem?.2 ⟨i, hget⟩
    simp only [init, List.mem_append, List.mem_replicate] at hmem
    rcases hmem with ⟨_, rfl⟩ | ⟨_, rfl⟩ <;> simp [fresh, in_critical_section] at hcs
  · intro i th hget _ hpc
    have hmem : th ∈ (init W R).threads := List.mem_iff_getElem?.2 ⟨i, hget⟩
    simp only [init, List.mem_append, List.mem_replicate] at hmem
    rcases hmem with ⟨_, rfl⟩ | ⟨_, rfl⟩ <;> simp [fresh] at hpc
  · simp only [init, List.map_append, List.sum_append, sum_credit_fresh]
    rfl

/-- When every writer has completed `I` iterations and is outside the
critical section, the credits add up to `I` per writer. -/
theorem sum_credit_done (l : List Thread) (I : Nat)
    (hdone : ∀ th ∈ l, th.role = Role.writer →
      th.iters = I ∧ in_critical_section th.pc = false) :
    (l.map credit).sum = (l.map Thread.role).count Role.writer * I := by
  induction l with
  | nil => simp
  | cons a l ih =>
    have hl := ih (fun th hth => hdone th (List.mem_cons_of_mem a hth))
    have ha := hdone a (List.mem_cons_self a l)
    rw [List.map_cons, List.sum_cons, List.map_cons, List.count_cons, hl]
    obtain ⟨role, pc, tmp, iters, ss⟩ := a
    cases role
    · obtain ⟨hi, hcs⟩ := ha rfl
      dsimp only at hi hcs
      subst hi
      have hpc : pc ≠ Pc.unlock := by
        intro e
        subst e
        simp [in_critical_section] at hcs
      simp [credit, hpc]
      ring
    · simp [credit]

/-- The counter after any schedule in which no lock initialisation hits a
lock a writer holds and at the end of which every writer has completed `I`
iterations and is outside the critical section. -/
theorem counter_of_done (W R I : Nat) (sched : List Event) (s : Sys)
    (hrun : exec (init W R) sched = some s)
    (hsafe : init_on_unheld (init W R) sched = true)
    (hdone : ∀ th ∈ s.threads, th.role = Role.writer →
      th.iters = I ∧ in_critical_section th.pc = false) :
    s.global_var = toS32 ((W * I : Nat) : Int) := by
  obtain ⟨⟨_, _, htot⟩, hroles⟩ := exec_inv sched (init W R) s (init_inv W R) hrun hsafe
  rw [htot, sum_credit_done s.threads I hdone, hroles]
  have hcount : ((init W R).threads.map Thread.role).count Role.writer = W := by
    simp [init, fresh, List.count_replicate]
  rw [hcount]

/-- Running a schedule in two parts. -/
theorem exec_append (a b : List Event) (s : Sys) :
    exec s (a ++ b) = (exec s a).bind (fun s1 => exec s1 b) := by
  induction a generalizing s with
  | nil => rfl
  | cons e es ih =>
    simp only [List.cons_append, exec]
    cases step s e with
    | none => rfl
    | some s2 => exact ih s2

/-- One loop iteration of a single writer running alone. -/
theorem exec_solo_iteration (k : Nat) (t : Int) :
    exec (quiet k t) [Event.run 0, Event.run 0, Event.run 0, Event.run 0, Event.run 0]
      = some (quiet (k + 1) (toS32 k)) := by
  have h : exec (quiet k t) [Event.run 0, Event.run 0, Event.run 0, Event.run 0, Event.run 0]
      = some { global_var := toS32 (toS32 k + 1), g_read_var := 0, owner := none, readers := 0,
               threads := [{ role := Role.writer, pc := Pc.test, tmp := toS32 k, iters := k + 1,
                             should_stop := false }] } := rfl
  rw [h, toS32_succ]
  unfold quiet
  push_cast
  rfl

/-- A single writer running alone completes `I` further iterations under the
schedule `solo I`. -/
theorem exec_solo (I : Nat) (k : Nat) (t : Int) :
    ∃ t1 : Int, exec (quiet k t) (solo I) = some (quiet (k + I) t1) := by
  induction I generalizing k t with
  | zero => exact ⟨t, rfl⟩
  | succ n ih =>
    obtain ⟨t1, h1⟩ := ih (k + 1) (toS32 k)
    refine ⟨t1, ?_⟩
    unfold solo at h1 ⊢
    rw [List.replicate_succ, List.flatten_cons, exec_append, exec_solo_iteration]
    simp only [Option.bind]
    rw [h1]
    congr 2
    omega

/-- C11 as stated fails on two counts. The lock is initialised after the
workers are started: under `late_init_schedule` the initialisation frees the
lock writer 0 holds, writer 1 increments the counter in between, and after
both writers have completed one iteration the counter is 1, not `2 × 1`. And
the counter is an `int`: one writer running alone for `2^31` iterations
(schedule `solo (2^31)`) leaves the counter at `-2^31`, not `1 × 2^31`. -/
theorem lost_update_counterexample :
    (exec (init 2 0) late_init_schedule
        = some ⟨1, 0, none, 0,
            [⟨Role.writer, Pc.test, 0, 1, false⟩, ⟨Role.writer, Pc.test, 0, 1, false⟩]⟩ ∧
      init_on_unheld (init 2 0) late_init_schedule = false ∧
      ¬ ((1 : Int) = ((2 * 1 : Nat) : Int))) ∧
      ∃ s : Sys, exec (init 1 0) (solo (2 ^ 31)) = some s ∧
        (∀ th ∈ s.threads, th.role = Role.writer →
          th.iters = 2 ^ 31 ∧ in_critical_section th.pc = false) ∧
        s.global_var = -(2 ^ 31) ∧ ¬ (s.global_var = ((1 * 2 ^ 31 : Nat) : Int)) := by
  refine ⟨⟨by decide, by decide, by decide⟩, ?_⟩
  obtain ⟨t1, h1⟩ := exec_solo (2 ^ 31) 0 0
  have hinit : init 1 0 = quiet 0 0 := rfl
  have hval : toS32 (((0 + 2 ^ 31 : Nat)) : Int) = -(2 ^ 31) := by
    unfold toS32
    norm_num
  refine ⟨quiet (0 + 2 ^ 31) t1, by rw [hinit]; exact h1, ?_, ?_, ?_⟩
  · intro th hth _
    simp only [quiet, List.mem_singleton] at hth
    subst hth
    exact ⟨by simp, rfl⟩
  · exact hval
  · show toS32 (((0 + 2 ^ 31 : Nat)) : Int) ≠ _
    rw [hval]
    norm_num

/-- C11 (as amended): for every number of writer threads `W`, every number of
reader threads, and every number `I` of loop iterations, after any
interleaving of the threads' steps (lock, load of the counter, store of the
incremented value, unlock) and of the lock initialisation in which the
initialisation does not fall while a writer holds the lock, and that leaves
every writer with `I` completed iterations and outside its critical section,
the shared counter, started at 0, is `W × I` reduced to the range of `int`; it
is exactly `W × I` whenever `W × I ≤ 2^31 - 1`: no such interleaving of the
critical sections loses an update. -/
theorem counter_equals_completed_increments (W R I : Nat) (sched : List Event) (s : Sys)
    (hrun : exec (init W R) sched = some s)
    (hsafe : init_on_unheld (init W R) sched = true)
    (hdone : ∀ th ∈ s.threads, th.role = Role.writer →
      th.iters = I ∧ in_critical_section th.pc = false) :
    s.global_var = toS32 ((W * I : Nat) : Int) ∧
      (W * I < 2 ^ 31 → s.global_var = ((W * I : Nat) : Int)) := by
  have h := counter_of_done W R I sched s hrun hsafe hdone
  refine ⟨h, ?_⟩
  intro hlt
  rw [h]
  apply toS32_of_range
  · have h0 : (0 : Int) ≤ ((W * I : Nat) : Int) := Int.natCast_nonneg _
    omega
  · exact_mod_cast hlt

/-- Witness for `counter_equals_completed_increments`: the two writers of the
mutex and spinlock demos, one iteration each; the lock initialisation falls
after writer 0 has passed its loop test and before it locks, and writer 1
reaches its lock call while writer 0 is inside the critical section; the
counter ends at 2. -/
theorem counter_equals_completed_increments_witness :
    exec (init 2 0)
        [Event.run 0, Event.lock_init, Event.run 0, Event.run 1, Event.run 0, Event.run 0,
         Event.run 0, Event.run 1, Event.run 1, Event.run 1, Event.run 1]
      = some ⟨2, 0, none, 0,
          [⟨Role.writer, Pc.test, 0, 1, false⟩, ⟨Role.writer, Pc.test, 1, 1, false⟩]⟩ ∧
      init_on_unheld (init 2 0)
        [Event.run 0, Event.lock_init, Event.run 0, Event.run 1, Event.run 0, Event.run 0,
         Event.run 0, Event.run 1, Event.run 1, Event.run 1, Event.run 1] = true ∧
      (2 : Int) = toS32 ((2 * 1 : Nat) : Int) ∧ (2 * 1 < 2 ^ 31 → (2 : Int) = ((2 * 1 : Nat) : Int)) :=
  ⟨by decide, by decide,
   counter_equals_completed_increments 2 0 1
     [Event.run 0, Event.lock_init, Event.run 0, Event.run 1, Event.run 0, Event.run 0,
      Event.run 0, Event.run 1, Event.run 1, Event.run 1, Event.run 1]
     ⟨2, 0, none, 0, [⟨Role.writer, Pc.test, 0, 1, false⟩, ⟨Role.writer, Pc.test, 1, 1, false⟩]⟩
     (by decide) (by decide) (by decide)⟩

end Locked
